import Mathlib

/-!
Shallow embedding of `simuleval/scorer/scorer.py` (class `SentenceLevelScorer`).

Python dictionaries are modelled as association lists whose insert operation
(`dictInsert`) replaces the value in place when the key is present and appends
otherwise, matching CPython dict assignment (keys unique, insertion order kept).
Python exceptions are modelled by `Except PyErr`; numeric metric values and BLEU
scores are modelled as rationals.

The per-sentence `Instance` objects, the dataloader and the sacrebleu library
are external to this file's source (spec §1 treats them as collaborators
specified only at their interface), so they enter the model as parameters:
an instance constructor `mk : Int → Instance`, a terminal-metric evaluator
`ev`, a serializer/deserializer pair `to_log`/`from_json`, and a corpus-BLEU
function `bleu` taking the tokenizer name and the two sentence lists.
-/

namespace Simuleval

/-- Python exception kinds relevant to the scorer:
`keyError` for dict lookup failures, `statisticsError` for `statistics.mean`
on empty data, `notImplementedError` for `raise NotImplementedError`. -/
inductive PyErr where
  | keyError
  | statisticsError
  | notImplementedError
  deriving DecidableEq, Repr

/-- Modelled from the spec: an Instance (external abstraction, spec §3/§6)
carries a self-reported integer `index`, a `finish_prediction` flag (the
`finished` flag of spec §3, named as the attribute the scorer reads), a
`prediction` string, a `reference` string, and a `metrics` mapping keyed by
metric family name, each family holding a sub-mapping of metric name to a
numeric value. -/
structure Instance where
  index : Int
  finish_prediction : Bool
  prediction : String
  reference : String
  metrics : List (String × List (String × Rat))
  deriving DecidableEq, Repr

/-- Arbitrary Python values appearing in an instance's `send_source`
response dictionary. -/
inductive PyVal where
  | int (n : Int)
  | str (s : String)
  deriving DecidableEq, Repr

/-- CPython dict assignment `d[k] = v`: replace the value in place when the
key is present, append the pair otherwise. -/
def dictInsert {κ α : Type} [DecidableEq κ] (m : List (κ × α)) (k : κ) (v : α) :
    List (κ × α) :=
  if (List.lookup k m).isSome then
    m.map (fun p => if p.1 = k then (k, v) else p)
  else
    m ++ [(k, v)]

/-- Python `str.strip()` with no argument: remove leading and trailing
whitespace. -/
def pyStrip (s : String) : String :=
  ⟨((s.data.dropWhile fun c => c.isWhitespace).reverse.dropWhile
      fun c => c.isWhitespace).reverse⟩

/-- Python `range(s, e)` as a list of integers. -/
def rangeList (s e : Int) : List Int :=
  (List.range (e - s).toNat).map (fun k => s + Int.ofNat k)

/-- Configuration surface consumed by `SentenceLevelScorer.__init__`
(the `args` Namespace). -/
structure Args where
  start_index : Int
  end_index : Int
  eval_latency_unit : String
  sacrebleu_tokenizer : String
  no_space : Bool
  source_type : Option String
  deriving DecidableEq, Repr

/-- The scorer state. `dataloader` is retained only through its length (the
one thing this core reads from it); the fields set only when `args is not
None` are `Option`s, left `none` on the degenerate `from_log` path. -/
structure SentenceLevelScorer where
  dataloader : Option Nat
  start_index : Int
  end_index : Int
  sacrebleu_tokenizer : String
  eval_latency_unit : Option String
  no_space : Option Bool
  instances : List (Int × Instance)
  deriving DecidableEq, Repr

/-- Modelled from the spec: `Instance.sentence_level_eval` is the instance's
forced terminal-metric computation entry point (spec §4.3/§6): invoked at
score time it (re)computes the instance's `metrics` mapping; it does not
alter `index`, `prediction`, `reference` or `finish_prediction`. The metric
computation itself is external, passed as `ev`. -/
def Instance.sentence_level_eval
    (ev : Instance → List (String × List (String × Rat))) (ins : Instance) :
    Instance :=
  { ins with metrics := ev ins }

/-- `SentenceLevelScorer.__len__`: `end_index - start_index`. -/
def SentenceLevelScorer.len (sc : SentenceLevelScorer) : Int :=
  sc.end_index - sc.start_index

/-- `SentenceLevelScorer.get_indices`: `range(start_index, end_index)`. -/
def SentenceLevelScorer.get_indices (sc : SentenceLevelScorer) : List Int :=
  rangeList sc.start_index sc.end_index

/-- `SentenceLevelScorer.get_info`. -/
def SentenceLevelScorer.get_info (sc : SentenceLevelScorer) :
    List (String × Int) :=
  [("num_sentences", sc.len)]

/-- `SentenceLevelScorer.reset`: for every `i` in `range(start_index,
end_index)` set `self.instances[i] = self.instance_class(i, self.dataloader,
self.args)`; the freshly constructed instance is `mk i` with `mk` closing
over the selected instance class, the dataloader and the args. The existing
mapping is not cleared first (only a warning is logged when non-empty). -/
def SentenceLevelScorer.reset (mk : Int → Instance) (sc : SentenceLevelScorer) :
    SentenceLevelScorer :=
  { sc with
    instances := sc.get_indices.foldl (fun m i => dictInsert m i (mk i)) sc.instances }

/-- `args.source_type == "speech"` selects the speech instance variant,
anything else the text-to-text variant. -/
def selectInstanceClass (args : Args) (mkSpeech mkText : Int → Instance) :
    Int → Instance :=
  if args.source_type = some "speech" then mkSpeech else mkText

/-- `SentenceLevelScorer.__init__` on the live path (`args` present):
resolves the negative `end_index` sentinel to the dataloader length, stores
the configuration, and resets when `doReset` is true. -/
def SentenceLevelScorer.init (dataloaderLen : Nat) (args : Args)
    (doReset : Bool) (mkSpeech mkText : Int → Instance) : SentenceLevelScorer :=
  let e : Int := if args.end_index < 0 then (dataloaderLen : Int) else args.end_index
  let sc : SentenceLevelScorer :=
    { dataloader := some dataloaderLen
      start_index := args.start_index
      end_index := e
      sacrebleu_tokenizer := args.sacrebleu_tokenizer
      eval_latency_unit := some args.eval_latency_unit
      no_space := some args.no_space
      instances := [] }
  if doReset then sc.reset (selectInstanceClass args mkSpeech mkText) else sc

/-- `SentenceLevelScorer.send_source`: look up the instance (a missing id
raises `KeyError`), forward the fetch to it — `iss` is the external
instance-level `send_source`, returning the advanced instance and its
response dict — then merge `"instance_id"` into the response. -/
def SentenceLevelScorer.send_source
    (iss : Instance → Int → Instance × List (String × PyVal))
    (sc : SentenceLevelScorer) (instance_id segment_size : Int) :
    Except PyErr (SentenceLevelScorer × List (String × PyVal)) :=
  match List.lookup instance_id sc.instances with
  | none => Except.error PyErr.keyError
  | some ins =>
    let r := iss ins segment_size
    Except.ok
      ({ sc with instances := dictInsert sc.instances instance_id r.1 },
        dictInsert r.2 "instance_id" (PyVal.int instance_id))

/-- Look up every index of `idxs` in the mapping left to right, `KeyError`
on the first miss (the evaluation of `self.instances[i]` inside a
comprehension over `get_indices()`). -/
def lookupAll (m : List (Int × Instance)) : List Int → Except PyErr (List Instance)
  | [] => Except.ok []
  | i :: rest =>
    match List.lookup i m with
    | none => Except.error PyErr.keyError
    | some ins => (lookupAll m rest).map (fun l => ins :: l)

/-- The `for idx in not_finish_write_id: self.instances[idx].sentence_level_eval()`
loop: each instance found unfinished is replaced in the mapping by its
forcibly evaluated version (in-place mutation of the stored object). -/
def evalLoop (ev : Instance → List (String × List (String × Rat)))
    (m : List (Int × Instance)) : List Int → Except PyErr (List (Int × Instance))
  | [] => Except.ok m
  | idx :: rest =>
    match List.lookup idx m with
    | none => Except.error PyErr.keyError
    | some ins => evalLoop ev (dictInsert m idx (ins.sentence_level_eval ev)) rest

/-- `SentenceLevelScorer.get_translation_list`. Returns, besides the
translation list itself, the updated scorer (the forced
`sentence_level_eval` calls mutate the stored instances) and the two logged
id lists: `not_finish_write_id` (indices whose instance is not finished,
computed first) and `empty_hypo_id` (stringified indices whose prediction is
empty, computed second, before the forced evaluations run). -/
def SentenceLevelScorer.get_translation_list
    (ev : Instance → List (String × List (String × Rat)))
    (sc : SentenceLevelScorer) :
    Except PyErr (SentenceLevelScorer × List Int × List String × List String) := do
  let idxs := sc.get_indices
  let all1 ← lookupAll sc.instances idxs
  let not_finish_write_id :=
    ((idxs.zip all1).filter (fun p => !p.2.finish_prediction)).map Prod.fst
  let empty_hypo_id :=
    ((idxs.zip all1).filter (fun p => p.2.prediction.length = 0)).map
      (fun p => toString p.1)
  let inst2 ← evalLoop ev sc.instances not_finish_write_id
  let sc2 := { sc with instances := inst2 }
  let post ← lookupAll inst2 idxs
  let translations := post.map (fun ins => ins.prediction)
  pure (sc2, not_finish_write_id, empty_hypo_id, translations)

/-- `SentenceLevelScorer.get_reference_list`. -/
def SentenceLevelScorer.get_reference_list (sc : SentenceLevelScorer) :
    Except PyErr (List String) := do
  let l ← lookupAll sc.instances sc.get_indices
  pure (l.map (fun ins => ins.reference))

/-- `SentenceLevelScorer.get_quality_score`: corpus BLEU of the translation
list against the (single) reference list under the configured tokenizer.
`bleu` stands for the external `sacrebleu.corpus_bleu(...).score`. Also
returns the updated scorer, since building the translation list may run
forced evaluations. -/
def SentenceLevelScorer.get_quality_score
    (ev : Instance → List (String × List (String × Rat)))
    (bleu : String → List String → List String → Rat)
    (sc : SentenceLevelScorer) :
    Except PyErr (SentenceLevelScorer × List (String × Rat)) := do
  let r ← sc.get_translation_list ev
  let refs ← r.1.get_reference_list
  pure (r.1, [("BLEU", bleu sc.sacrebleu_tokenizer r.2.2.2 refs)])

/-- `statistics.mean`: raises `StatisticsError` on empty data, otherwise the
arithmetic mean. -/
def pymean (l : List Rat) : Except PyErr Rat :=
  if l.length = 0 then Except.error PyErr.statisticsError
  else Except.ok (l.sum / (l.length : Rat))

/-- `[seg.metrics[fam][metric] for seg in instances.values()]`: each missing
family or missing metric name raises `KeyError`. -/
def metricValues (fam metric : String) : List Instance → Except PyErr (List Rat)
  | [] => Except.ok []
  | seg :: rest =>
    match List.lookup fam seg.metrics with
    | none => Except.error PyErr.keyError
    | some sub =>
      match List.lookup metric sub with
      | none => Except.error PyErr.keyError
      | some v => (metricValues fam metric rest).map (fun l => v :: l)

/-- The body of `if fam in self.instances[0].metrics: results[metric +
suffix] = mean([seg.metrics[fam][metric] for seg in
self.instances.values()])` inside the `get_latency_score` loop, with `ins0`
the already looked-up instance 0. -/
def optFamilyInsert (fam suffix metric : String) (insts : List (Int × Instance))
    (ins0 : Instance) (results : List (String × Rat)) :
    Except PyErr (List (String × Rat)) :=
  if (List.lookup fam ins0.metrics).isSome then
    match metricValues fam metric (insts.map Prod.snd) with
    | Except.error e => Except.error e
    | Except.ok vs =>
      match pymean vs with
      | Except.error e => Except.error e
      | Except.ok m => Except.ok (dictInsert results (metric ++ suffix) m)
  else Except.ok results

/-- One iteration of the `for metric in ["AL", "AP", "DAL"]` loop of
`get_latency_score`: store the mean of the base latency values under
`metric`, then test `"latency_ca" in self.instances[0].metrics` (the lookup
of key `0` raises `KeyError` when absent) and `"latency_text_w_time"`
likewise, storing the suffixed means when the family is present on
instance 0. -/
def latencyMetricStep (insts : List (Int × Instance))
    (results : List (String × Rat)) (metric : String) :
    Except PyErr (List (String × Rat)) :=
  match metricValues "latency" metric (insts.map Prod.snd) with
  | Except.error e => Except.error e
  | Except.ok vs =>
    match pymean vs with
    | Except.error e => Except.error e
    | Except.ok m =>
      let results1 := dictInsert results metric m
      match List.lookup 0 insts with
      | none => Except.error PyErr.keyError
      | some ins0 =>
        match optFamilyInsert "latency_ca" "_CA" metric insts ins0 results1 with
        | Except.error e => Except.error e
        | Except.ok results2 =>
          optFamilyInsert "latency_text_w_time" " (Time in ms)" metric insts
            ins0 results2

/-- The `for metric in ["AL", "AP", "DAL"]` loop accumulating the `results`
dict. -/
def latencyLoop (insts : List (Int × Instance)) (results : List (String × Rat)) :
    List String → Except PyErr (List (String × Rat))
  | [] => Except.ok results
  | metric :: rest =>
    match latencyMetricStep insts results metric with
    | Except.error e => Except.error e
    | Except.ok r => latencyLoop insts r rest

/-- `SentenceLevelScorer.get_latency_score`. -/
def SentenceLevelScorer.get_latency_score (sc : SentenceLevelScorer) :
    Except PyErr (List (String × Rat)) :=
  latencyLoop sc.instances [] ["AL", "AP", "DAL"]

/-- `SentenceLevelScorer.score`: `{"Quality": ..., "Latency": ...}`, quality
computed first (so the forced evaluations have run when latency is read). -/
def SentenceLevelScorer.score
    (ev : Instance → List (String × List (String × Rat)))
    (bleu : String → List String → List String → Rat)
    (sc : SentenceLevelScorer) :
    Except PyErr (List (String × Rat) × List (String × Rat)) := do
  let q ← sc.get_quality_score ev bleu
  let l ← q.1.get_latency_score
  pure (q.2, l)

/-- `SentenceLevelScorer.from_log`: anything other than `target_type ==
"text"` raises `NotImplementedError` before the log is opened; otherwise
each line is stripped and handed to the external deserializer `from_json`
(the `TextOutputInstance.from_json` class factory) and keyed by the
instance's self-reported index; the resulting scorer has no dataloader,
`start_index = 0`, `end_index = len(instances.keys())` and the default
tokenizer `"13a"`. -/
def SentenceLevelScorer.from_log (from_json : String → Instance)
    (lines : List String) (target_type : String) :
    Except PyErr SentenceLevelScorer :=
  if target_type = "text" then
    let instances := lines.foldl (fun m line =>
      let ins := from_json (pyStrip line)
      dictInsert m ins.index ins) []
    Except.ok
      { dataloader := none
        start_index := 0
        end_index := (instances.length : Int)
        sacrebleu_tokenizer := "13a"
        eval_latency_unit := none
        no_space := none
        instances := instances }
  else Except.error PyErr.notImplementedError

instance {ε α : Type} [DecidableEq ε] [DecidableEq α] : DecidableEq (Except ε α) := by
  intro a b
  cases a <;> cases b
  case error.error x y => exact decidable_of_iff (x = y) (by constructor <;> (intro h; cases h; rfl))
  case error.ok => exact isFalse (by intro h; cases h)
  case ok.error => exact isFalse (by intro h; cases h)
  case ok.ok x y => exact decidable_of_iff (x = y) (by constructor <;> (intro h; cases h; rfl))

/-- A metrics mapping carrying only the base latency family, with the given
values for the three metric names. -/
def exMetrics (al ap dal : Rat) : List (String × List (String × Rat)) :=
  [("latency", [("AL", al), ("AP", ap), ("DAL", dal)])]

/-- A concrete instance used as test input. -/
def exInstance (i : Int) (al : Rat) (fin : Bool) (pred : String) : Instance :=
  { index := i, finish_prediction := fin, prediction := pred,
    reference := "ref", metrics := exMetrics al al al }

/-- A concrete configuration used as test input. -/
def exArgs : Args :=
  { start_index := 0, end_index := 2, eval_latency_unit := "word",
    sacrebleu_tokenizer := "13a", no_space := false, source_type := none }

/-- A concrete instance constructor used as test input. -/
def exMk (i : Int) : Instance := exInstance i 2 true "hello"

/-- A concrete terminal-metric computation used as test input: keep the
metrics unchanged. -/
def exEv (ins : Instance) : List (String × List (String × Rat)) := ins.metrics

/-- A concrete scorer with two finished instances whose AL values are 2 and
4 (as are AP and DAL). -/
def scMean : SentenceLevelScorer :=
  { dataloader := none, start_index := 0, end_index := 2,
    sacrebleu_tokenizer := "13a", eval_latency_unit := none, no_space := none,
    instances := [(0, exInstance 0 2 true "a"), (1, exInstance 1 4 true "b")] }

/-- A metrics mapping carrying the base latency family and the
computation-aware family. -/
def exMetricsCA (al : Rat) : List (String × List (String × Rat)) :=
  [("latency", [("AL", al), ("AP", al), ("DAL", al)]),
    ("latency_ca", [("AL", al), ("AP", al), ("DAL", al)])]

/-- A concrete finished instance carrying the `latency_ca` family as well. -/
def exInstanceCA (i : Int) (al : Rat) : Instance :=
  { index := i, finish_prediction := true, prediction := "p",
    reference := "r", metrics := exMetricsCA al }

/-- A concrete scorer whose two instances uniformly carry the `latency` and
`latency_ca` families. -/
def scCA : SentenceLevelScorer :=
  { dataloader := none, start_index := 0, end_index := 2,
    sacrebleu_tokenizer := "13a", eval_latency_unit := none, no_space := none,
    instances := [(0, exInstanceCA 0 2), (1, exInstanceCA 1 4)] }

/-- A concrete scorer whose second instance is unfinished and has an empty
prediction. -/
def scUnfin : SentenceLevelScorer :=
  { dataloader := none, start_index := 0, end_index := 2,
    sacrebleu_tokenizer := "13a", eval_latency_unit := none, no_space := none,
    instances := [(0, exInstance 0 2 true "a"), (1, exInstance 1 4 false "")] }

/-- A concrete scorer with an empty instance mapping. -/
def scEmpty : SentenceLevelScorer :=
  { dataloader := none, start_index := 0, end_index := 0,
    sacrebleu_tokenizer := "13a", eval_latency_unit := none, no_space := none,
    instances := [] }

/-- A concrete scorer whose only instance is stored under key 1 (no key 0). -/
def scNoZero : SentenceLevelScorer :=
  { dataloader := none, start_index := 1, end_index := 2,
    sacrebleu_tokenizer := "13a", eval_latency_unit := none, no_space := none,
    instances := [(1, exInstance 1 2 true "a")] }

/-- A concrete deserializer used as test input: line `"a"` becomes the
instance with index 0, anything else index 1. -/
def exFromJson (s : String) : Instance :=
  exInstance (if s = "a" then 0 else 1) 2 true s

/-- A concrete deserializer whose output always reports index 0, used to
exercise duplicate self-reported indices. -/
def exFromJsonDup (s : String) : Instance := exInstance 0 2 true s

/-- A concrete scorer with one finished instance and a non-default
sacrebleu tokenizer. -/
def scTok : SentenceLevelScorer :=
  { dataloader := none, start_index := 0, end_index := 1,
    sacrebleu_tokenizer := "tok", eval_latency_unit := none, no_space := none,
    instances := [(0, exInstance 0 1 true "a")] }

/-- The scorer `from_log` reconstructs from `scTok`'s serialized instances:
identical instances but the default tokenizer `"13a"`. -/
def scTokR : SentenceLevelScorer :=
  { dataloader := none, start_index := 0, end_index := 1,
    sacrebleu_tokenizer := "13a", eval_latency_unit := none, no_space := none,
    instances := [(0, exInstance 0 1 true "a")] }

/-- A concrete corpus-BLEU stand-in that depends on the tokenizer name. -/
def bleuX (tokenizer : String) (_ : List String) (_ : List String) : Rat :=
  if tokenizer = "13a" then 0 else 1

/-- A concrete corpus-BLEU stand-in depending only on the hypothesis list. -/
def bleuZ (_ : String) (hyps : List String) (_ : List String) : Rat :=
  (hyps.length : Rat)

/-- A concrete serializer for `scTok`'s single instance. -/
def toLogX (_ : Instance) : String := "L"

/-- A concrete deserializer inverting `toLogX` on `scTok`'s single
instance. -/
def fromJsonX (_ : String) : Instance := exInstance 0 1 true "a"

/-- A concrete serializer for `scMean`'s instances (their predictions are
distinct). -/
def toLogW (ins : Instance) : String := ins.prediction

/-- A concrete deserializer inverting `toLogW` on `scMean`'s instances. -/
def fromJsonW (s : String) : Instance :=
  if s = "a" then exInstance 0 2 true "a" else exInstance 1 4 true "b"

/-- A concrete instance-level `send_source` used as test input: the instance
is unchanged and the response carries one key. -/
def exIss (ins : Instance) (segment_size : Int) :
    Instance × List (String × PyVal) :=
  (ins, [("segment", PyVal.int segment_size)])

/-! ### General facts about the dict model and about `rangeList` -/

theorem lookup_cons_self {κ α : Type} [DecidableEq κ] (k : κ) (v : α) (l : List (κ × α)) :
    List.lookup k ((k, v) :: l) = some v := by
  simp [List.lookup_cons]

theorem lookup_cons_of_ne {κ α : Type} [DecidableEq κ] {a k : κ} (h : a ≠ k) (v : α)
    (l : List (κ × α)) : List.lookup a ((k, v) :: l) = List.lookup a l := by
  rw [List.lookup_cons, beq_false_of_ne h]

theorem lookup_map_replace {κ α : Type} [DecidableEq κ] (m : List (κ × α)) (k a : κ) (v : α) :
    List.lookup a (m.map (fun p => if p.1 = k then (k, v) else p)) =
      if a = k then (List.lookup k m).map (fun _ => v) else List.lookup a m := by
  induction m with
  | nil => simp
  | cons p rest ih =>
    obtain ⟨pk, pv⟩ := p
    by_cases hp : pk = k
    · subst hp
      by_cases ha : a = pk
      · subst ha
        simp [lookup_cons_self]
      · rw [List.map_cons, if_pos (show ((pk, pv).1 = pk) from rfl),
          lookup_cons_of_ne ha, ih, if_neg ha, if_neg ha, lookup_cons_of_ne ha]
    · by_cases ha : a = pk
      · subst ha
        have hak : a ≠ k := hp
        rw [List.map_cons, if_neg hp, lookup_cons_self, if_neg hak, lookup_cons_self]
      · rw [List.map_cons, if_neg hp, lookup_cons_of_ne ha, ih,
          lookup_cons_of_ne ha, lookup_cons_of_ne (Ne.symm hp)]

theorem lookup_dictInsert {κ α : Type} [DecidableEq κ] (m : List (κ × α)) (k a : κ) (v : α) :
    List.lookup a (dictInsert m k v) = if a = k then some v else List.lookup a m := by
  unfold dictInsert
  by_cases h : (List.lookup k m).isSome
  · rw [if_pos h, lookup_map_replace]
    obtain ⟨w, hw⟩ := Option.isSome_iff_exists.mp h
    simp [hw]
  · rw [if_neg h]
    have hn : List.lookup k m = none := Option.not_isSome_iff_eq_none.mp h
    rw [List.lookup_append]
    by_cases ha : a = k
    · subst ha
      simp [hn, lookup_cons_self]
    · simp [ha, lookup_cons_of_ne ha]

theorem mem_keys_iff_lookup {κ α : Type} [DecidableEq κ] (m : List (κ × α)) (a : κ) :
    a ∈ m.map Prod.fst ↔ (List.lookup a m).isSome := by
  rw [List.lookup_isSome_iff]
  simp only [List.mem_map]
  constructor
  · rintro ⟨p, hp, rfl⟩
    exact ⟨p, hp, by simp⟩
  · rintro ⟨p, hp, he⟩
    exact ⟨p, hp, (eq_of_beq he).symm⟩

theorem mem_keys_dictInsert {κ α : Type} [DecidableEq κ] (m : List (κ × α)) (k a : κ) (v : α) :
    a ∈ (dictInsert m k v).map Prod.fst ↔ a ∈ m.map Prod.fst ∨ a = k := by
  rw [mem_keys_iff_lookup, mem_keys_iff_lookup, lookup_dictInsert]
  by_cases ha : a = k <;> simp [ha]

theorem dictInsert_fresh {κ α : Type} [DecidableEq κ] (m : List (κ × α)) (k : κ) (v : α)
    (h : List.lookup k m = none) : dictInsert m k v = m ++ [(k, v)] := by
  simp [dictInsert, h]

theorem foldl_dictInsert_fresh {κ α : Type} [DecidableEq κ] :
    ∀ (ps : List (κ × α)) (acc : List (κ × α)),
      (ps.map Prod.fst).Nodup →
      (∀ k ∈ ps.map Prod.fst, List.lookup k acc = none) →
      ps.foldl (fun m p => dictInsert m p.1 p.2) acc = acc ++ ps
  | [], acc, _, _ => by simp
  | p :: rest, acc, hnd, hfresh => by
    obtain ⟨pk, pv⟩ := p
    have h1 : List.lookup pk acc = none := hfresh pk (by simp)
    have hnd2 : (pk :: rest.map Prod.fst).Nodup := by simpa using hnd
    have hnd' : (rest.map Prod.fst).Nodup := (List.nodup_cons.mp hnd2).2
    have hhd : pk ∉ rest.map Prod.fst := (List.nodup_cons.mp hnd2).1
    have hfresh' : ∀ k ∈ rest.map Prod.fst, List.lookup k (acc ++ [(pk, pv)]) = none := by
      intro k hk
      have hka : List.lookup k acc = none := hfresh k (by simp [hk])
      have hne : k ≠ pk := fun he => hhd (he ▸ hk)
      rw [List.lookup_append, hka, lookup_cons_of_ne hne]
      simp
    rw [List.foldl_cons, dictInsert_fresh _ _ _ h1,
      foldl_dictInsert_fresh rest (acc ++ [(pk, pv)]) hnd' hfresh']
    simp

theorem lookup_eq_of_keys_eq_map {κ α : Type} [DecidableEq κ] (f : κ → α) :
    ∀ (idxs : List κ) (i : κ), i ∈ idxs →
      List.lookup i (idxs.map (fun j => (j, f j))) = some (f i)
  | [], _, h => by cases h
  | j :: rest, i, h => by
    by_cases hij : i = j
    · subst hij
      simp [lookup_cons_self]
    · have hr : i ∈ rest := by
        cases List.mem_cons.mp h with
        | inl he => exact absurd he hij
        | inr hr => exact hr
      simpa [lookup_cons_of_ne hij] using lookup_eq_of_keys_eq_map f rest i hr

theorem rangeList_nodup (s e : Int) : (rangeList s e).Nodup := by
  rw [rangeList]
  refine List.Nodup.map ?_ (List.nodup_range _)
  intro a b h
  have h2 : s + Int.ofNat a = s + Int.ofNat b := h
  exact Int.ofNat.inj (add_left_cancel h2)

theorem length_rangeList (s e : Int) : (rangeList s e).length = (e - s).toNat := by
  rw [rangeList, List.length_map, List.length_range]

theorem reset_instances_from_empty (mk : Int → Instance) (idxs : List Int)
    (hnd : idxs.Nodup) :
    idxs.foldl (fun m i => dictInsert m i (mk i)) ([] : List (Int × Instance)) =
      idxs.map (fun i => (i, mk i)) := by
  have hkeys : ((idxs.map (fun i => (i, mk i))).map Prod.fst).Nodup := by
    rw [List.map_map]
    have hcomp : (Prod.fst ∘ fun i : Int => ((i, mk i) : Int × Instance)) = fun i => i := rfl
    rw [hcomp]
    simpa using hnd
  have hfresh : ∀ k ∈ (idxs.map (fun i => (i, mk i))).map Prod.fst,
      List.lookup k ([] : List (Int × Instance)) = none := by
    intro k _
    rfl
  have h := foldl_dictInsert_fresh (idxs.map (fun i => (i, mk i))) [] hkeys hfresh
  rw [List.foldl_map] at h
  simpa using h

/-! ### Claims -/

/-- C2: for every scorer constructed with a configuration (and reset, as the
constructor does), `len` equals `end_index - start_index`, the instance
mapping's key list equals exactly `range(start_index, end_index)` (so the
key set is that range, each key occurring once), and every index in that
range is bound to the freshly constructed instance of the selected variant. -/
theorem init_len_and_reset_keys (dataloaderLen : Nat) (args : Args)
    (mkSpeech mkText : Int → Instance) (sc : SentenceLevelScorer)
    (hsc : sc = SentenceLevelScorer.init dataloaderLen args true mkSpeech mkText) :
    sc.len = sc.end_index - sc.start_index ∧
    sc.instances.map Prod.fst = rangeList sc.start_index sc.end_index ∧
    (∀ i ∈ rangeList sc.start_index sc.end_index,
      List.lookup i sc.instances = some (selectInstanceClass args mkSpeech mkText i)) := by
  subst hsc
  have hinst :
      (SentenceLevelScorer.init dataloaderLen args true mkSpeech mkText).instances =
        (rangeList args.start_index
            (if args.end_index < 0 then (dataloaderLen : Int) else args.end_index)).map
          (fun i => (i, selectInstanceClass args mkSpeech mkText i)) := by
    rw [SentenceLevelScorer.init]
    simp only [if_pos trivial, SentenceLevelScorer.reset, SentenceLevelScorer.get_indices]
    exact reset_instances_from_empty _ _ (rangeList_nodup _ _)
  refine ⟨rfl, ?_, ?_⟩
  · rw [hinst, List.map_map]
    have hcomp : (Prod.fst ∘ fun i : Int =>
        ((i, selectInstanceClass args mkSpeech mkText i) : Int × Instance)) = fun i => i := rfl
    rw [hcomp]
    simp
    rfl
  · intro i hi
    rw [hinst]
    exact lookup_eq_of_keys_eq_map _ _ i hi

/-- Witness for C2 at a concrete configuration: index 1 of `range(0, 2)` is
bound to the freshly constructed text instance. -/
theorem init_len_and_reset_keys_witness :
    List.lookup 1 (SentenceLevelScorer.init 5 exArgs true exMk exMk).instances =
      some (selectInstanceClass exArgs exMk exMk 1) := by
  have h := init_len_and_reset_keys 5 exArgs exMk exMk
    (SentenceLevelScorer.init 5 exArgs true exMk exMk) rfl
  exact h.2.2 1 (by decide)

/-- C9: for every target type other than `"text"`, `from_log` fails with
`NotImplementedError`, and it does so independently of the log's lines — the
result is the same as on an empty log, so no partial reconstruction (no
deserialized instance, no scorer) is produced. -/
theorem from_log_non_text_fails (from_json : String → Instance)
    (lines : List String) (target_type : String) (h : target_type ≠ "text") :
    SentenceLevelScorer.from_log from_json lines target_type =
        Except.error PyErr.notImplementedError ∧
    SentenceLevelScorer.from_log from_json lines target_type =
      SentenceLevelScorer.from_log from_json [] target_type := by
  constructor <;> simp [SentenceLevelScorer.from_log, h]

/-- Witness for C9 at the concrete target type `"speech"`. -/
theorem from_log_non_text_fails_witness :
    SentenceLevelScorer.from_log exFromJson ["x"] "speech" =
      Except.error PyErr.notImplementedError :=
  (from_log_non_text_fails exFromJson ["x"] "speech" (by decide)).1

/-- C8: when `instance_id` is a key of the populated mapping, `send_source`
returns the mapping produced by that instance's own `send_source` with the
additional key `"instance_id"` bound to `instance_id` (other keys are
untouched); when `instance_id` is not a key, the call fails with an uncaught
lookup error. -/
theorem send_source_contract (iss : Instance → Int → Instance × List (String × PyVal))
    (sc : SentenceLevelScorer) (instance_id segment_size : Int) :
    (∀ ins, List.lookup instance_id sc.instances = some ins →
      ∃ sc2 d, sc.send_source iss instance_id segment_size = Except.ok (sc2, d) ∧
        List.lookup "instance_id" d = some (PyVal.int instance_id) ∧
        (∀ k, k ≠ "instance_id" →
          List.lookup k d = List.lookup k (iss ins segment_size).2)) ∧
    (List.lookup instance_id sc.instances = none →
      sc.send_source iss instance_id segment_size = Except.error PyErr.keyError) := by
  constructor
  · intro ins hins
    refine ⟨{ sc with instances := dictInsert sc.instances instance_id (iss ins segment_size).1 },
      dictInsert (iss ins segment_size).2 "instance_id" (PyVal.int instance_id),
      ?_, ?_, ?_⟩
    · simp [SentenceLevelScorer.send_source, hins]
    · rw [lookup_dictInsert]
      simp
    · intro k hk
      rw [lookup_dictInsert, if_neg hk]
  · intro hnone
    simp [SentenceLevelScorer.send_source, hnone]

/-- Witness for C8 at concrete inputs: id 5 is missing from the two-instance
mapping and fails with the lookup error, while id 0 is present and the
response dict binds `"instance_id"` to 0. -/
theorem send_source_contract_witness :
    scMean.send_source exIss 5 7 = Except.error PyErr.keyError ∧
    List.lookup "instance_id"
        [(("segment" : String), PyVal.int 7), ("instance_id", PyVal.int 0)] =
      some (PyVal.int 0) := by
  refine ⟨(send_source_contract exIss scMean 5 7).2 rfl, ?_⟩
  obtain ⟨sc2, d, h1, h2, h3⟩ :=
    (send_source_contract exIss scMean 0 7).1 (exInstance 0 2 true "a") rfl
  have hconc : scMean.send_source exIss 0 7 =
      Except.ok ({ scMean with
          instances := dictInsert scMean.instances 0 (exInstance 0 2 true "a") },
        [("segment", PyVal.int 7), ("instance_id", PyVal.int 0)]) := by
    rfl
  rw [hconc] at h1
  simp only [Except.ok.injEq, Prod.mk.injEq] at h1
  rw [← h1.2] at h2
  exact h2

theorem except_bind_error {ε α β : Type} (e : ε) (f : α → Except ε β) :
    (Except.error e : Except ε α) >>= f = Except.error e := rfl

theorem except_bind_ok {ε α β : Type} (a : α) (f : α → Except ε β) :
    (Except.ok a : Except ε α) >>= f = f a := rfl

theorem except_map_error {ε α β : Type} (e : ε) (f : α → β) :
    (Except.error e : Except ε α).map f = Except.error e := rfl

theorem except_map_ok {ε α β : Type} (a : α) (f : α → β) :
    (Except.ok a : Except ε α).map f = Except.ok (f a) := rfl

theorem except_pure {ε α : Type} (a : α) :
    (pure a : Except ε α) = Except.ok a := rfl

theorem metricValues_error (fam metric : String) :
    ∀ (vals : List Instance) (e : PyErr),
      metricValues fam metric vals = Except.error e → e = PyErr.keyError
  | [], e, h => by
    rw [metricValues] at h
    cases h
  | seg :: rest, e, h => by
    rw [metricValues] at h
    cases hf : List.lookup fam seg.metrics with
    | none =>
      simp only [hf] at h
      exact (Except.error.inj h).symm
    | some sub =>
      simp only [hf] at h
      cases hm : List.lookup metric sub with
      | none =>
        simp only [hm] at h
        exact (Except.error.inj h).symm
      | some v =>
        simp only [hm] at h
        cases hr : metricValues fam metric rest with
        | error e2 =>
          rw [hr, except_map_error] at h
          rw [← Except.error.inj h]
          exact metricValues_error fam metric rest e2 hr
        | ok l =>
          rw [hr, except_map_ok] at h
          cases h

theorem metricValues_ok_length (fam metric : String) :
    ∀ (vals : List Instance) (l : List Rat),
      metricValues fam metric vals = Except.ok l → l.length = vals.length
  | [], l, h => by
    rw [metricValues] at h
    rw [← Except.ok.inj h]
    rfl
  | seg :: rest, l, h => by
    rw [metricValues] at h
    cases hf : List.lookup fam seg.metrics with
    | none =>
      simp only [hf] at h
      cases h
    | some sub =>
      simp only [hf] at h
      cases hm : List.lookup metric sub with
      | none =>
        simp only [hm] at h
        cases h
      | some v =>
        simp only [hm] at h
        cases hr : metricValues fam metric rest with
        | error e2 =>
          rw [hr, except_map_error] at h
          cases h
        | ok l2 =>
          rw [hr, except_map_ok] at h
          rw [← Except.ok.inj h]
          simp [metricValues_ok_length fam metric rest l2 hr]

/-- C5 (amended): a scorer reconstructed by `from_log` with the text target
type has `start_index = 0` and `end_index` equal to the number of entries in
the reconstructed mapping, i.e. the number of distinct self-reported
indices; this equals the count of log lines exactly when the self-reported
indices are pairwise distinct. -/
theorem from_log_text_range_derivation (from_json : String → Instance)
    (lines : List String) (sc : SentenceLevelScorer)
    (h : SentenceLevelScorer.from_log from_json lines "text" = Except.ok sc) :
    sc.start_index = 0 ∧ sc.end_index = (sc.instances.length : Int) ∧
    ((lines.map (fun line => (from_json (pyStrip line)).index)).Nodup →
      sc.end_index = (lines.length : Int)) := by
  rw [SentenceLevelScorer.from_log, if_pos rfl] at h
  have hrec := Except.ok.inj h
  subst hrec
  refine ⟨rfl, rfl, ?_⟩
  intro hnd
  have hkeys : ((lines.map
      (fun line => ((from_json (pyStrip line)).index, from_json (pyStrip line)))).map Prod.fst).Nodup := by
    rw [List.map_map]
    exact hnd
  have hfresh : ∀ k ∈ (lines.map
      (fun line => ((from_json (pyStrip line)).index, from_json (pyStrip line)))).map Prod.fst,
      List.lookup k ([] : List (Int × Instance)) = none := fun k _ => rfl
  have h2 := foldl_dictInsert_fresh
    (lines.map (fun line => ((from_json (pyStrip line)).index, from_json (pyStrip line)))) [] hkeys hfresh
  rw [List.foldl_map] at h2
  show ((lines.foldl
      (fun m line => dictInsert m (from_json (pyStrip line)).index (from_json (pyStrip line))) []).length
    : Int) = (lines.length : Int)
  rw [h2]
  simp

/-- Witness for C5: a two-line log whose deserialized indices 0 and 1 are
distinct yields `start_index = 0` and `end_index = 2`. -/
theorem from_log_text_range_derivation_witness :
    (SentenceLevelScorer.from_log exFromJson ["a", "b"] "text").toOption.map
      (fun sc => (sc.start_index, sc.end_index)) = some (0, 2) := by
  have hok : SentenceLevelScorer.from_log exFromJson ["a", "b"] "text" =
      Except.ok
        { dataloader := none, start_index := 0, end_index := 2,
          sacrebleu_tokenizer := "13a", eval_latency_unit := none, no_space := none,
          instances := [(0, exInstance 0 2 true "a"), (1, exInstance 1 2 true "b")] } := by
    rfl
  have h := from_log_text_range_derivation exFromJson ["a", "b"] _ hok
  have hnd : ((["a", "b"] : List String).map
      (fun line => (exFromJson (pyStrip line)).index)).Nodup := by decide
  have hend := h.2.2 hnd
  rw [hok]
  have h2 : ((["a", "b"] : List String).length : Int) = 2 := by decide
  rw [h2] at hend
  simp only [Except.toOption, Option.map, h.1, hend]

/-- Counterexample to C5 as stated: with a deserializer whose records both
self-report index 0, a two-line log reconstructs to `end_index = 1`, not the
line count 2. -/
theorem from_log_count_counterexample :
    SentenceLevelScorer.from_log exFromJsonDup ["a", "b"] "text" =
      Except.ok
        { dataloader := none, start_index := 0, end_index := 1,
          sacrebleu_tokenizer := "13a", eval_latency_unit := none, no_space := none,
          instances := [(0, exInstance 0 2 true "b")] } ∧
    (1 : Int) ≠ ((["a", "b"] : List String).length : Int) := by
  exact ⟨rfl, by decide⟩

/-- C10 (amended): for every scorer whose non-empty instance mapping does
not contain key 0, `get_latency_score` fails with the lookup error
(`KeyError`) regardless of which metric families any instance carries —
either a per-instance `metrics` lookup or the unconditional `instances[0]`
membership test fails first; and whenever 0 is a key of an instance
mapping, the `instances[0]` access itself cannot fail.  (Without the
non-emptiness condition the failure on an empty mapping is `mean`'s
statistics error, not a lookup error.) -/
theorem get_latency_score_zero_lookup (sc : SentenceLevelScorer)
    (hne : sc.instances ≠ []) (h0 : List.lookup 0 sc.instances = none) :
    sc.get_latency_score = Except.error PyErr.keyError ∧
    (∀ sc2 : SentenceLevelScorer, 0 ∈ sc2.instances.map Prod.fst →
      (List.lookup 0 sc2.instances).isSome) := by
  constructor
  · rw [SentenceLevelScorer.get_latency_score, latencyLoop]
    have hstep : latencyMetricStep sc.instances [] "AL" = Except.error PyErr.keyError := by
      cases hmv : metricValues "latency" "AL" (sc.instances.map Prod.snd) with
      | error e =>
        have he := metricValues_error _ _ _ _ hmv
        simp only [latencyMetricStep, hmv, he]
      | ok vs =>
        have hlen : vs.length = sc.instances.length := by
          have h2 := metricValues_ok_length _ _ _ _ hmv
          simpa using h2
        have hnz : ¬vs.length = 0 := by
          rw [hlen]
          intro hc
          exact hne (List.length_eq_zero.mp hc)
        have hpm : pymean vs = Except.ok (vs.sum / (vs.length : Rat)) := by
          rw [pymean, if_neg hnz]
        simp only [latencyMetricStep, hmv, hpm, h0]
    simp only [hstep]
  · intro sc2 h
    rw [mem_keys_iff_lookup] at h
    exact h

/-- Witness for C10 (amended) at concrete inputs: a one-instance mapping
under key 1 fails with `KeyError`, and key 0 of a mapping containing it is
looked up successfully. -/
theorem get_latency_score_zero_lookup_witness :
    scNoZero.get_latency_score = Except.error PyErr.keyError ∧
    (List.lookup 0 scMean.instances).isSome := by
  refine ⟨(get_latency_score_zero_lookup scNoZero (by decide) (by decide)).1, ?_⟩
  exact (get_latency_score_zero_lookup scNoZero (by decide) (by decide)).2 scMean (by decide)

/-- Counterexample to C10 as stated: the empty instance mapping does not
contain key 0, yet `get_latency_score` fails with the statistics error of
`mean` on empty data, not with a lookup error. -/
theorem get_latency_score_statistics_counterexample :
    List.lookup 0 scEmpty.instances = none ∧
    scEmpty.get_latency_score = Except.error PyErr.statisticsError ∧
    (Except.error PyErr.statisticsError : Except PyErr (List (String × Rat))) ≠
      Except.error PyErr.keyError := by
  exact ⟨rfl, by decide, by decide⟩

theorem string_length_eq_zero_iff (s : String) : s.length = 0 ↔ s = "" := by
  cases s with
  | mk data =>
    constructor
    · intro h
      have hd : data = [] := List.length_eq_zero.mp h
      rw [hd]
    · intro h
      rw [h]
      decide

theorem lookupAll_ok (m : List (Int × Instance)) :
    ∀ (idxs : List Int), (∀ i ∈ idxs, (List.lookup i m).isSome) →
      ∃ l, lookupAll m idxs = Except.ok l ∧
        List.Forall₂ (fun i ins => List.lookup i m = some ins) idxs l
  | [], _ => ⟨[], rfl, List.Forall₂.nil⟩
  | i :: rest, hall => by
    obtain ⟨ins, hins⟩ := Option.isSome_iff_exists.mp (hall i (by simp))
    obtain ⟨l, hl, hF⟩ := lookupAll_ok m rest (fun j hj => hall j (by simp [hj]))
    refine ⟨ins :: l, ?_, List.Forall₂.cons hins hF⟩
    simp only [lookupAll, hins, hl, except_map_ok]

theorem evalLoop_ok (ev : Instance → List (String × List (String × Rat))) :
    ∀ (nfw : List Int) (m : List (Int × Instance)), nfw.Nodup →
      (∀ i ∈ nfw, (List.lookup i m).isSome) →
      ∃ m2, evalLoop ev m nfw = Except.ok m2 ∧
        ∀ k : Int, List.lookup k m2 =
          if k ∈ nfw then (List.lookup k m).map (Instance.sentence_level_eval ev)
          else List.lookup k m
  | [], m, _, _ => ⟨m, rfl, by intro k; simp⟩
  | idx :: rest, m, hnd, hall => by
    obtain ⟨ins, hins⟩ := Option.isSome_iff_exists.mp (hall idx (by simp))
    have hnd2 := List.nodup_cons.mp hnd
    have hall' : ∀ i ∈ rest,
        (List.lookup i (dictInsert m idx (ins.sentence_level_eval ev))).isSome := by
      intro i hi
      rw [lookup_dictInsert]
      by_cases hcase : i = idx
      · simp [hcase]
      · rw [if_neg hcase]
        exact hall i (by simp [hi])
    obtain ⟨m2, hm2, hchar⟩ :=
      evalLoop_ok ev rest (dictInsert m idx (ins.sentence_level_eval ev)) hnd2.2 hall'
    refine ⟨m2, ?_, ?_⟩
    · simp only [evalLoop, hins, hm2]
    · intro k
      by_cases hk : k = idx
      · subst hk
        have hkr : k ∉ rest := hnd2.1
        rw [hchar k, if_neg hkr, lookup_dictInsert, if_pos rfl,
          if_pos (show k ∈ k :: rest by simp), hins]
        rfl
      · rw [hchar k, lookup_dictInsert, if_neg hk]
        simp [List.mem_cons, hk]

theorem zip_filter_fst_mem (m : List (Int × Instance)) (p : Instance → Bool) :
    ∀ (idxs : List Int) (l : List Instance),
      List.Forall₂ (fun i ins => List.lookup i m = some ins) idxs l →
      ∀ i : Int, (i ∈ ((idxs.zip l).filter (fun q => p q.2)).map Prod.fst ↔
        (∃ ins, List.lookup i m = some ins ∧ p ins = true) ∧ i ∈ idxs)
  | [], l, hF, i => by
    have hnil : l = [] := List.forall₂_nil_left_iff.mp hF
    subst hnil
    simp
  | i0 :: rest, l, hF, i => by
    obtain ⟨ins0, l', h0, hF', rfl⟩ := List.forall₂_cons_left_iff.mp hF
    have ih := zip_filter_fst_mem m p rest l' hF' i
    rw [List.zip_cons_cons]
    by_cases hp : p ins0
    · have hfc : List.filter (fun q => p q.2) ((i0, ins0) :: rest.zip l') =
          (i0, ins0) :: List.filter (fun q => p q.2) (rest.zip l') := by
        simp [List.filter_cons, hp]
      rw [hfc, List.map_cons]
      constructor
      · intro hmem
        rcases List.mem_cons.mp hmem with he | hm
        · rw [he]
          exact ⟨⟨ins0, h0, hp⟩, by simp⟩
        · obtain ⟨⟨ins, hins, hpins⟩, hidx⟩ := ih.mp hm
          exact ⟨⟨ins, hins, hpins⟩, by simp [hidx]⟩
      · rintro ⟨⟨ins, hins, hpins⟩, hidx⟩
        rcases List.mem_cons.mp hidx with he | hm
        · rw [he]
          exact List.mem_cons.mpr (Or.inl rfl)
        · exact List.mem_cons.mpr (Or.inr (ih.mpr ⟨⟨ins, hins, hpins⟩, hm⟩))
    · have hfc : List.filter (fun q => p q.2) ((i0, ins0) :: rest.zip l') =
          List.filter (fun q => p q.2) (rest.zip l') := by
        simp [List.filter_cons, hp]
      rw [hfc, ih]
      constructor
      · rintro ⟨⟨ins, hins, hpins⟩, hidx⟩
        exact ⟨⟨ins, hins, hpins⟩, by simp [hidx]⟩
      · rintro ⟨⟨ins, hins, hpins⟩, hidx⟩
        rcases List.mem_cons.mp hidx with he | hm
        · rw [he] at hins
          rw [h0] at hins
          have he2 : ins0 = ins := Option.some.inj hins
          exact absurd hpins (he2 ▸ hp)
        · exact ⟨⟨ins, hins, hpins⟩, hm⟩

theorem map_fst_filter_nodup (idxs : List Int) (l : List Instance)
    (q : Int × Instance → Bool) (hlen : l.length = idxs.length) (hnd : idxs.Nodup) :
    (((idxs.zip l).filter q).map Prod.fst).Nodup := by
  have hsub : List.Sublist ((idxs.zip l).filter q) (idxs.zip l) := List.filter_sublist _
  have hsub2 := List.Sublist.map Prod.fst hsub
  have hmf : (idxs.zip l).map Prod.fst = idxs := List.map_fst_zip idxs l hlen.ge
  rw [hmf] at hsub2
  exact List.Nodup.sublist hsub2 hnd

theorem gtl_main (ev : Instance → List (String × List (String × Rat)))
    (sc : SentenceLevelScorer)
    (hall : ∀ i ∈ sc.get_indices, (List.lookup i sc.instances).isSome) :
    ∃ (l post : List Instance) (m2 : List (Int × Instance)),
      List.Forall₂ (fun i ins => List.lookup i sc.instances = some ins) sc.get_indices l ∧
      (∀ k : Int, List.lookup k m2 =
        if k ∈ ((sc.get_indices.zip l).filter
            (fun q => !q.2.finish_prediction)).map Prod.fst
        then (List.lookup k sc.instances).map (Instance.sentence_level_eval ev)
        else List.lookup k sc.instances) ∧
      List.Forall₂ (fun i ins => List.lookup i m2 = some ins) sc.get_indices post ∧
      sc.get_translation_list ev = Except.ok
        ({ sc with instances := m2 },
          ((sc.get_indices.zip l).filter (fun q => !q.2.finish_prediction)).map Prod.fst,
          ((sc.get_indices.zip l).filter
            (fun q => decide (q.2.prediction.length = 0))).map (fun q => toString q.1),
          post.map (fun ins => ins.prediction)) := by
  obtain ⟨l, hl, hF⟩ := lookupAll_ok sc.instances sc.get_indices hall
  have hlen : l.length = sc.get_indices.length := (List.Forall₂.length_eq hF).symm
  have hnd : sc.get_indices.Nodup := by
    rw [SentenceLevelScorer.get_indices]
    exact rangeList_nodup _ _
  have hnfwnd : (((sc.get_indices.zip l).filter
      (fun q => !q.2.finish_prediction)).map Prod.fst).Nodup :=
    map_fst_filter_nodup _ _ _ hlen hnd
  have hnfwall : ∀ i ∈ ((sc.get_indices.zip l).filter
      (fun q => !q.2.finish_prediction)).map Prod.fst,
      (List.lookup i sc.instances).isSome := by
    intro i hi
    obtain ⟨⟨ins, hins, _⟩, _⟩ := (zip_filter_fst_mem sc.instances
      (fun ins => !ins.finish_prediction) sc.get_indices l hF i).mp hi
    rw [hins]
    rfl
  obtain ⟨m2, hm2, hchar⟩ := evalLoop_ok ev _ sc.instances hnfwnd hnfwall
  have hall2 : ∀ i ∈ sc.get_indices, (List.lookup i m2).isSome := by
    intro i hi
    rw [hchar i]
    by_cases hmem : i ∈ ((sc.get_indices.zip l).filter
        (fun q => !q.2.finish_prediction)).map Prod.fst
    · rw [if_pos hmem]
      obtain ⟨ins, hins⟩ := Option.isSome_iff_exists.mp (hall i hi)
      rw [hins]
      rfl
    · rw [if_neg hmem]
      exact hall i hi
  obtain ⟨post, hpost, hFpost⟩ := lookupAll_ok m2 sc.get_indices hall2
  refine ⟨l, post, m2, hF, hchar, hFpost, ?_⟩
  simp only [SentenceLevelScorer.get_translation_list, hl, except_bind_ok, hm2, hpost]
  rfl

/-- C3 (with the Instance's forced terminal-metric computation modelled
from the spec): when every index of the configured range is populated,
`get_translation_list` succeeds — it does not fail because instances are
unfinished — after invoking `sentence_level_eval` synchronously on exactly
the unfinished instances (an index is logged in `not_finish_write_id` iff
its instance is unfinished, and its stored instance is replaced by the
evaluated one, finished instances staying untouched), and every instance,
finished or not, contributes its prediction string to the returned list in
index order. -/
theorem translation_list_forced_recovery
    (ev : Instance → List (String × List (String × Rat)))
    (sc : SentenceLevelScorer)
    (hall : ∀ i ∈ sc.get_indices, (List.lookup i sc.instances).isSome) :
    ∃ sc2 nfw empty ts, sc.get_translation_list ev = Except.ok (sc2, nfw, empty, ts) ∧
      (∀ i ∈ sc.get_indices, ∀ ins, List.lookup i sc.instances = some ins →
        (i ∈ nfw ↔ ins.finish_prediction = false) ∧
        List.lookup i sc2.instances =
          some (if ins.finish_prediction then ins else ins.sentence_level_eval ev)) ∧
      List.Forall₂ (fun i t => ∃ ins2, List.lookup i sc2.instances = some ins2 ∧
        t = ins2.prediction) sc.get_indices ts := by
  obtain ⟨l, post, m2, hF, hchar, hFpost, heq⟩ := gtl_main ev sc hall
  refine ⟨_, _, _, _, heq, ?_, ?_⟩
  · intro i hi ins hins
    have hiff := zip_filter_fst_mem sc.instances (fun x => !x.finish_prediction)
      sc.get_indices l hF i
    constructor
    · constructor
      · intro hmem
        obtain ⟨⟨ins', hins', hp⟩, _⟩ := hiff.mp hmem
        rw [hins] at hins'
        have he : ins = ins' := Option.some.inj hins'
        rw [he]
        simpa using hp
      · intro hfin
        exact hiff.mpr ⟨⟨ins, hins, by simp [hfin]⟩, hi⟩
    · show List.lookup i m2 = _
      by_cases hfin : ins.finish_prediction
      · have hnot : i ∉ ((sc.get_indices.zip l).filter
            (fun q => !q.2.finish_prediction)).map Prod.fst := by
          intro hmem
          obtain ⟨⟨ins', hins', hp⟩, _⟩ := hiff.mp hmem
          rw [hins] at hins'
          have he : ins = ins' := Option.some.inj hins'
          rw [← he] at hp
          simp [hfin] at hp
        rw [hchar i, if_neg hnot, hins, if_pos hfin]
      · have hmem : i ∈ ((sc.get_indices.zip l).filter
            (fun q => !q.2.finish_prediction)).map Prod.fst :=
          hiff.mpr ⟨⟨ins, hins, by simp [hfin]⟩, hi⟩
        rw [hchar i, if_pos hmem, hins, if_neg hfin]
        rfl
  · show List.Forall₂ (fun i t => ∃ ins2, List.lookup i m2 = some ins2 ∧
      t = ins2.prediction) sc.get_indices (post.map (fun ins => ins.prediction))
    rw [List.forall₂_map_right_iff]
    exact hFpost.imp (fun a b hab => ⟨b, hab, rfl⟩)

/-- Witness for C3 at a concrete scorer whose instance 1 is unfinished:
the call succeeds and returns one prediction per index. -/
theorem translation_list_forced_recovery_witness :
    (scUnfin.get_translation_list exEv).toOption.map
      (fun r => (r.2.1, r.2.2.2.length)) = some ([1], 2) := by
  obtain ⟨sc2, nfw, empty, ts, heq, hmain, hFts⟩ :=
    translation_list_forced_recovery exEv scUnfin (by decide)
  have hconc : scUnfin.get_translation_list exEv = Except.ok
      ({ scUnfin with instances := [(0, exInstance 0 2 true "a"),
          (1, (exInstance 1 4 false "").sentence_level_eval exEv)] },
        [1], ["1"], ["a", ""]) := by
    rfl
  rw [hconc]
  rfl

/-- C4 (with the Instance's forced terminal-metric computation modelled
from the spec as metrics-only, so predictions are unchanged by the recovery
step): when every index of the configured range is populated, the
stringified indices logged as empty-hypothesis warnings are exactly the
indices whose instance's prediction is the empty string after the forced
recovery step has run, and such instances are not excluded from the
returned translation list, which keeps one entry per index. -/
theorem empty_hypothesis_logging
    (ev : Instance → List (String × List (String × Rat)))
    (sc : SentenceLevelScorer)
    (hall : ∀ i ∈ sc.get_indices, (List.lookup i sc.instances).isSome) :
    ∃ sc2 nfw empty ts, sc.get_translation_list ev = Except.ok (sc2, nfw, empty, ts) ∧
      (∃ emptyIdx : List Int, empty = emptyIdx.map (fun i => toString i) ∧
        ∀ i ∈ sc.get_indices,
          (i ∈ emptyIdx ↔ ∃ ins2, List.lookup i sc2.instances = some ins2 ∧
            ins2.prediction = "")) ∧
      ts.length = sc.get_indices.length := by
  obtain ⟨l, post, m2, hF, hchar, hFpost, heq⟩ := gtl_main ev sc hall
  have hpost : ∀ i ∈ sc.get_indices, ∀ ins, List.lookup i sc.instances = some ins →
      ∃ ins2, List.lookup i m2 = some ins2 ∧ ins2.prediction = ins.prediction := by
    intro i _ ins hins
    rw [hchar i]
    by_cases hmem : i ∈ ((sc.get_indices.zip l).filter
        (fun q => !q.2.finish_prediction)).map Prod.fst
    · rw [if_pos hmem, hins]
      exact ⟨ins.sentence_level_eval ev, rfl, rfl⟩
    · rw [if_neg hmem, hins]
      exact ⟨ins, rfl, rfl⟩
  have hpre : ∀ i : Int, ∀ ins2, List.lookup i m2 = some ins2 →
      ∃ ins, List.lookup i sc.instances = some ins ∧ ins.prediction = ins2.prediction := by
    intro i ins2 hins2
    rw [hchar i] at hins2
    by_cases hmem : i ∈ ((sc.get_indices.zip l).filter
        (fun q => !q.2.finish_prediction)).map Prod.fst
    · rw [if_pos hmem] at hins2
      cases hins : List.lookup i sc.instances with
      | none =>
        rw [hins] at hins2
        cases hins2
      | some ins =>
        rw [hins] at hins2
        refine ⟨ins, rfl, ?_⟩
        rw [← Option.some.inj hins2]
        rfl
    · rw [if_neg hmem] at hins2
      exact ⟨ins2, hins2, rfl⟩
  refine ⟨_, _, _, _, heq,
    ⟨((sc.get_indices.zip l).filter
      (fun q => decide (q.2.prediction.length = 0))).map Prod.fst, ?_, ?_⟩, ?_⟩
  · rw [List.map_map]
    rfl
  · intro i hi
    have hiff := zip_filter_fst_mem sc.instances
      (fun x => decide (x.prediction.length = 0)) sc.get_indices l hF i
    constructor
    · intro hmem
      obtain ⟨⟨ins, hins, hp⟩, _⟩ := hiff.mp hmem
      obtain ⟨ins2, hins2, hpred⟩ := hpost i hi ins hins
      refine ⟨ins2, hins2, ?_⟩
      rw [hpred]
      exact (string_length_eq_zero_iff _).mp (by simpa using hp)
    · rintro ⟨ins2, hins2, hpred⟩
      obtain ⟨ins, hins, hpred2⟩ := hpre i ins2 hins2
      refine hiff.mpr ⟨⟨ins, hins, ?_⟩, hi⟩
      have hz : ins.prediction.length = 0 := by
        rw [hpred2, hpred]
        rfl
      simpa using hz
  · show (post.map (fun ins => ins.prediction)).length = sc.get_indices.length
    rw [List.length_map, ← List.Forall₂.length_eq hFpost]

/-- Witness for C4 at a concrete scorer: instance 1 has the empty
prediction, index 1 is logged (as `"1"`), and the returned list still has
both entries. -/
theorem empty_hypothesis_logging_witness :
    (scUnfin.get_translation_list exEv).toOption.map
      (fun r => (r.2.2.1, r.2.2.2.length)) = some (["1"], 2) := by
  obtain ⟨sc2, nfw, empty, ts, heq, hempty, hlen⟩ :=
    empty_hypothesis_logging exEv scUnfin (by decide)
  have hconc : scUnfin.get_translation_list exEv = Except.ok
      ({ scUnfin with instances := [(0, exInstance 0 2 true "a"),
          (1, (exInstance 1 4 false "").sentence_level_eval exEv)] },
        [1], ["1"], ["a", ""]) := by
    rfl
  rw [hconc]
  rfl

theorem self_ne_append (s t : String) (h : t ≠ "") : s ≠ s ++ t := by
  intro he
  have hl := congrArg String.length he
  rw [String.length_append] at hl
  have hz : t.length = 0 := by omega
  exact h ((string_length_eq_zero_iff t).mp hz)

theorem pymean_ok (l : List Rat) (m : Rat) (h : pymean l = Except.ok m) :
    ¬l.length = 0 ∧ m = l.sum / (l.length : Rat) := by
  by_cases hz : l.length = 0
  · rw [pymean, if_pos hz] at h
    cases h
  · rw [pymean, if_neg hz] at h
    exact ⟨hz, (Except.ok.inj h).symm⟩

theorem optFamilyInsert_ok (fam suffix metric : String)
    (insts : List (Int × Instance)) (ins0 : Instance)
    (res r : List (String × Rat))
    (h : optFamilyInsert fam suffix metric insts ins0 res = Except.ok r) :
    (∀ k : String, k ≠ metric ++ suffix → List.lookup k r = List.lookup k res) ∧
    (∀ k : String, k ∈ r.map Prod.fst ↔ (k ∈ res.map Prod.fst ∨
      ((List.lookup fam ins0.metrics).isSome ∧ k = metric ++ suffix))) := by
  by_cases hflag : (List.lookup fam ins0.metrics).isSome
  · rw [optFamilyInsert, if_pos hflag] at h
    cases hmv : metricValues fam metric (insts.map Prod.snd) with
    | error e =>
      simp only [hmv] at h
      cases h
    | ok vs =>
      simp only [hmv] at h
      cases hpm : pymean vs with
      | error e =>
        simp only [hpm] at h
        cases h
      | ok m =>
        simp only [hpm] at h
        rw [← Except.ok.inj h]
        constructor
        · intro k hk
          rw [lookup_dictInsert, if_neg hk]
        · intro k
          rw [mem_keys_dictInsert]
          simp [hflag]
  · rw [optFamilyInsert, if_neg hflag] at h
    rw [← Except.ok.inj h]
    constructor
    · intro k _
      rfl
    · intro k
      simp [hflag]

theorem latencyMetricStep_ok (insts : List (Int × Instance))
    (res r : List (String × Rat)) (metric : String)
    (h : latencyMetricStep insts res metric = Except.ok r) :
    ∃ vs ins0, metricValues "latency" metric (insts.map Prod.snd) = Except.ok vs ∧
      ¬vs.length = 0 ∧ List.lookup 0 insts = some ins0 ∧
      List.lookup metric r = some (vs.sum / (vs.length : Rat)) ∧
      (∀ k : String, k ≠ metric → k ≠ metric ++ "_CA" →
        k ≠ metric ++ " (Time in ms)" → List.lookup k r = List.lookup k res) ∧
      (∀ k : String, k ∈ r.map Prod.fst ↔ (k ∈ res.map Prod.fst ∨ k = metric ∨
        ((List.lookup "latency_ca" ins0.metrics).isSome ∧ k = metric ++ "_CA") ∨
        ((List.lookup "latency_text_w_time" ins0.metrics).isSome ∧
          k = metric ++ " (Time in ms)"))) := by
  cases hmv : metricValues "latency" metric (insts.map Prod.snd) with
  | error e =>
    simp only [latencyMetricStep, hmv] at h
    cases h
  | ok vs =>
    cases hpm : pymean vs with
    | error e =>
      simp only [latencyMetricStep, hmv, hpm] at h
      cases h
    | ok m =>
      obtain ⟨hnz, hm⟩ := pymean_ok vs m hpm
      cases h0 : List.lookup 0 insts with
      | none =>
        simp only [latencyMetricStep, hmv, hpm, h0] at h
        cases h
      | some ins0 =>
        simp only [latencyMetricStep, hmv, hpm, h0] at h
        cases hca : optFamilyInsert "latency_ca" "_CA" metric insts ins0
            (dictInsert res metric m) with
        | error e =>
          rw [hca] at h
          cases h
        | ok r2 =>
          rw [hca] at h
          obtain ⟨hpre2, hmem2⟩ := optFamilyInsert_ok _ _ _ _ _ _ _ hca
          obtain ⟨hpre3, hmem3⟩ := optFamilyInsert_ok _ _ _ _ _ _ _ h
          refine ⟨vs, ins0, rfl, hnz, rfl, ?_, ?_, ?_⟩
          · rw [hpre3 metric (self_ne_append _ _ (by decide)),
              hpre2 metric (self_ne_append _ _ (by decide)),
              lookup_dictInsert, if_pos rfl, hm]
          · intro k hk1 hk2 hk3
            rw [hpre3 k hk3, hpre2 k hk2, lookup_dictInsert, if_neg hk1]
          · intro k
            rw [hmem3 k, hmem2 k, mem_keys_dictInsert]
            tauto

/-- C7: whenever `get_latency_score` reports a mapping (in particular for a
non-empty instance mapping, which the success implies), the reported value
under each of `AL`, `AP` and `DAL` is the unweighted arithmetic mean — sum
divided by count — of the per-instance `metrics["latency"][metric]` values,
one per instance. -/
theorem latency_metrics_are_means (sc : SentenceLevelScorer)
    (rs : List (String × Rat)) (h : sc.get_latency_score = Except.ok rs) :
    sc.instances ≠ [] ∧
    ∀ metric ∈ (["AL", "AP", "DAL"] : List String),
      ∃ vs, metricValues "latency" metric (sc.instances.map Prod.snd) = Except.ok vs ∧
        vs.length = sc.instances.length ∧
        List.lookup metric rs = some (vs.sum / (vs.length : Rat)) := by
  rw [SentenceLevelScorer.get_latency_score] at h
  cases h1 : latencyMetricStep sc.instances [] "AL" with
  | error e =>
    simp only [latencyLoop, h1] at h
    cases h
  | ok r1 =>
    simp only [latencyLoop, h1] at h
    cases h2 : latencyMetricStep sc.instances r1 "AP" with
    | error e =>
      simp only [h2] at h
      cases h
    | ok r2 =>
      simp only [h2] at h
      cases h3 : latencyMetricStep sc.instances r2 "DAL" with
      | error e =>
        simp only [h3] at h
        cases h
      | ok r3 =>
        simp only [h3] at h
        have hrs : r3 = rs := Except.ok.inj h
        subst hrs
        obtain ⟨vsA, ins0, hvsA, hnzA, _, hlookA, _, _⟩ :=
          latencyMetricStep_ok _ _ _ _ h1
        obtain ⟨vsP, _, hvsP, _, _, hlookP, hpre2, _⟩ :=
          latencyMetricStep_ok _ _ _ _ h2
        obtain ⟨vsD, _, hvsD, _, _, hlookD, hpre3, _⟩ :=
          latencyMetricStep_ok _ _ _ _ h3
        have hlenA := metricValues_ok_length _ _ _ _ hvsA
        have hlenP := metricValues_ok_length _ _ _ _ hvsP
        have hlenD := metricValues_ok_length _ _ _ _ hvsD
        rw [List.length_map] at hlenA hlenP hlenD
        constructor
        · intro hc
          rw [hc] at hlenA
          exact hnzA (by simpa using hlenA)
        · intro metric hm
          have hm2 : metric = "AL" ∨ metric = "AP" ∨ metric = "DAL" := by
            simpa using hm
          rcases hm2 with rfl | rfl | rfl
          · refine ⟨vsA, hvsA, hlenA, ?_⟩
            rw [hpre3 "AL" (by decide) (by decide) (by decide),
              hpre2 "AL" (by decide) (by decide) (by decide), hlookA]
          · refine ⟨vsP, hvsP, hlenP, ?_⟩
            rw [hpre3 "AP" (by decide) (by decide) (by decide), hlookP]
          · exact ⟨vsD, hvsD, hlenD, hlookD⟩

/-- Witness for C7 at a concrete two-instance scorer with AL values 2 and
4: the reported AL is 3. -/
theorem latency_metrics_are_means_witness :
    scMean.get_latency_score = Except.ok [("AL", 3), ("AP", 3), ("DAL", 3)] ∧
    List.lookup "AL" [(("AL" : String), (3 : Rat)), ("AP", 3), ("DAL", 3)] =
      some 3 := by
  have hok : scMean.get_latency_score =
      Except.ok [("AL", 3), ("AP", 3), ("DAL", 3)] := by
    simp [SentenceLevelScorer.get_latency_score, latencyLoop, latencyMetricStep,
      optFamilyInsert, metricValues, pymean, scMean, exInstance, exMetrics, dictInsert,
      List.lookup, List.map, except_map_ok, List.sum_cons, List.sum_nil]
    norm_num
  have h := latency_metrics_are_means scMean _ hok
  obtain ⟨vs, hvs, hlen, hAL⟩ := h.2 "AL" (by simp)
  have hvs2 : vs = [2, 4] := by
    have hconc : metricValues "latency" "AL" (scMean.instances.map Prod.snd) =
        Except.ok [2, 4] := by decide
    rw [hconc] at hvs
    exact (Except.ok.inj hvs).symm
  subst hvs2
  refine ⟨hok, hAL.trans ?_⟩
  norm_num

theorem metricValues_ok_of (fam metric : String) :
    ∀ vals : List Instance,
      (∀ ins ∈ vals, ∃ sub v, List.lookup fam ins.metrics = some sub ∧
        List.lookup metric sub = some v) →
      ∃ vs, metricValues fam metric vals = Except.ok vs
  | [], _ => ⟨[], rfl⟩
  | seg :: rest, hall => by
    obtain ⟨sub, v, hsub, hv⟩ := hall seg (by simp)
    obtain ⟨vs, hvs⟩ := metricValues_ok_of fam metric rest (fun i hi => hall i (by simp [hi]))
    refine ⟨v :: vs, ?_⟩
    simp only [metricValues, hsub, hv, hvs, except_map_ok]

theorem optFamilyInsert_ok_of (fam suffix metric : String)
    (insts : List (Int × Instance)) (ins0 : Instance) (res : List (String × Rat))
    (hne : insts ≠ [])
    (hfam : (List.lookup fam ins0.metrics).isSome = true →
      ∀ ins ∈ insts.map Prod.snd, ∃ sub v, List.lookup fam ins.metrics = some sub ∧
        List.lookup metric sub = some v) :
    ∃ r, optFamilyInsert fam suffix metric insts ins0 res = Except.ok r := by
  by_cases hflag : (List.lookup fam ins0.metrics).isSome
  · obtain ⟨vs, hvs⟩ := metricValues_ok_of fam metric _ (hfam hflag)
    have hlen := metricValues_ok_length _ _ _ _ hvs
    have hnz : ¬vs.length = 0 := by
      rw [hlen, List.length_map]
      intro hc
      exact hne (List.length_eq_zero.mp hc)
    have hpm : pymean vs = Except.ok (vs.sum / (vs.length : Rat)) := by
      rw [pymean, if_neg hnz]
    refine ⟨dictInsert res (metric ++ suffix) (vs.sum / (vs.length : Rat)), ?_⟩
    rw [optFamilyInsert, if_pos hflag]
    simp only [hvs, hpm]
  · exact ⟨res, by rw [optFamilyInsert, if_neg hflag]⟩

theorem latencyMetricStep_ok_of (insts : List (Int × Instance))
    (res : List (String × Rat)) (metric : String) (ins0 : Instance)
    (hne : insts ≠ []) (h0 : List.lookup 0 insts = some ins0)
    (hlat : ∀ ins ∈ insts.map Prod.snd, ∃ sub v,
      List.lookup "latency" ins.metrics = some sub ∧ List.lookup metric sub = some v)
    (hca : (List.lookup "latency_ca" ins0.metrics).isSome = true →
      ∀ ins ∈ insts.map Prod.snd, ∃ sub v,
        List.lookup "latency_ca" ins.metrics = some sub ∧
        List.lookup metric sub = some v)
    (htt : (List.lookup "latency_text_w_time" ins0.metrics).isSome = true →
      ∀ ins ∈ insts.map Prod.snd, ∃ sub v,
        List.lookup "latency_text_w_time" ins.metrics = some sub ∧
        List.lookup metric sub = some v) :
    ∃ r, latencyMetricStep insts res metric = Except.ok r := by
  obtain ⟨vs, hvs⟩ := metricValues_ok_of "latency" metric _ hlat
  have hlen := metricValues_ok_length _ _ _ _ hvs
  have hnz : ¬vs.length = 0 := by
    rw [hlen, List.length_map]
    intro hc
    exact hne (List.length_eq_zero.mp hc)
  have hpm : pymean vs = Except.ok (vs.sum / (vs.length : Rat)) := by
    rw [pymean, if_neg hnz]
  obtain ⟨r2, hr2⟩ := optFamilyInsert_ok_of "latency_ca" "_CA" metric insts ins0
    (dictInsert res metric (vs.sum / (vs.length : Rat))) hne hca
  obtain ⟨r3, hr3⟩ := optFamilyInsert_ok_of "latency_text_w_time" " (Time in ms)"
    metric insts ins0 r2 hne htt
  refine ⟨r3, ?_⟩
  simp only [latencyMetricStep, hvs, hpm, h0, hr2, hr3]

/-- C6: for every scorer whose instances all carry uniform metric families
(the three relevant family keys are present on an instance exactly when
they are present on instance 0, and every present family binds `AL`, `AP`
and `DAL`), `get_latency_score` returns a mapping that contains the key
`metric ++ "_CA"` (for each of `AL`, `AP`, `DAL`) iff instance 0's metrics
contain the `"latency_ca"` family, and contains `metric ++ " (Time in ms)"`
iff instance 0's metrics contain `"latency_text_w_time"`; only instance 0's
family membership occurs in these conditions. -/
theorem latency_optional_keys_iff_instance_zero (sc : SentenceLevelScorer)
    (ins0 : Instance) (hne : sc.instances ≠ [])
    (h0 : List.lookup 0 sc.instances = some ins0)
    (huni : ∀ ins ∈ sc.instances.map Prod.snd,
      ∀ fam ∈ (["latency", "latency_ca", "latency_text_w_time"] : List String),
      (List.lookup fam ins.metrics).isSome = (List.lookup fam ins0.metrics).isSome)
    (hwf : ∀ ins ∈ sc.instances.map Prod.snd,
      ∀ fam ∈ (["latency", "latency_ca", "latency_text_w_time"] : List String),
      ∀ sub, List.lookup fam ins.metrics = some sub →
      ∀ metric ∈ (["AL", "AP", "DAL"] : List String),
        (List.lookup metric sub).isSome)
    (hlat0 : (List.lookup "latency" ins0.metrics).isSome) :
    ∃ rs, sc.get_latency_score = Except.ok rs ∧
      ∀ metric ∈ (["AL", "AP", "DAL"] : List String),
        (((metric ++ "_CA") ∈ rs.map Prod.fst) ↔
          (List.lookup "latency_ca" ins0.metrics).isSome) ∧
        (((metric ++ " (Time in ms)") ∈ rs.map Prod.fst) ↔
          (List.lookup "latency_text_w_time" ins0.metrics).isSome) := by
  have hfam : ∀ fam ∈ (["latency", "latency_ca", "latency_text_w_time"] : List String),
      ∀ metric ∈ (["AL", "AP", "DAL"] : List String),
      (List.lookup fam ins0.metrics).isSome = true →
      ∀ ins ∈ sc.instances.map Prod.snd,
        ∃ sub v, List.lookup fam ins.metrics = some sub ∧
          List.lookup metric sub = some v := by
    intro fam hf metric hmm hflag ins hins
    have hsome : (List.lookup fam ins.metrics).isSome = true := by
      rw [huni ins hins fam hf]
      exact hflag
    obtain ⟨sub, hsub⟩ := Option.isSome_iff_exists.mp hsome
    obtain ⟨v, hv⟩ := Option.isSome_iff_exists.mp (hwf ins hins fam hf sub hsub metric hmm)
    exact ⟨sub, v, hsub, hv⟩
  obtain ⟨r1, hr1⟩ := latencyMetricStep_ok_of sc.instances [] "AL" ins0 hne h0
    (hfam "latency" (by simp) "AL" (by simp) hlat0)
    (fun hflag => hfam "latency_ca" (by simp) "AL" (by simp) hflag)
    (fun hflag => hfam "latency_text_w_time" (by simp) "AL" (by simp) hflag)
  obtain ⟨r2, hr2⟩ := latencyMetricStep_ok_of sc.instances r1 "AP" ins0 hne h0
    (hfam "latency" (by simp) "AP" (by simp) hlat0)
    (fun hflag => hfam "latency_ca" (by simp) "AP" (by simp) hflag)
    (fun hflag => hfam "latency_text_w_time" (by simp) "AP" (by simp) hflag)
  obtain ⟨r3, hr3⟩ := latencyMetricStep_ok_of sc.instances r2 "DAL" ins0 hne h0
    (hfam "latency" (by simp) "DAL" (by simp) hlat0)
    (fun hflag => hfam "latency_ca" (by simp) "DAL" (by simp) hflag)
    (fun hflag => hfam "latency_text_w_time" (by simp) "DAL" (by simp) hflag)
  have hloop : sc.get_latency_score = Except.ok r3 := by
    rw [SentenceLevelScorer.get_latency_score]
    simp only [latencyLoop, hr1, hr2, hr3]
  obtain ⟨_, i0A, _, _, h0A, _, _, hmemA⟩ := latencyMetricStep_ok _ _ _ _ hr1
  obtain ⟨_, i0P, _, _, h0P, _, _, hmemP⟩ := latencyMetricStep_ok _ _ _ _ hr2
  obtain ⟨_, i0D, _, _, h0D, _, _, hmemD⟩ := latencyMetricStep_ok _ _ _ _ hr3
  rw [h0] at h0A h0P h0D
  have heA : ins0 = i0A := Option.some.inj h0A
  have heP : ins0 = i0P := Option.some.inj h0P
  have heD : ins0 = i0D := Option.some.inj h0D
  subst heA
  rw [← heP] at hmemP
  rw [← heD] at hmemD
  have hkeys : ∀ k : String, k ∈ r3.map Prod.fst ↔
      ((k = "AL" ∨
        ((List.lookup "latency_ca" ins0.metrics).isSome ∧ k = "AL" ++ "_CA") ∨
        ((List.lookup "latency_text_w_time" ins0.metrics).isSome ∧
          k = "AL" ++ " (Time in ms)")) ∨
       (k = "AP" ∨
        ((List.lookup "latency_ca" ins0.metrics).isSome ∧ k = "AP" ++ "_CA") ∨
        ((List.lookup "latency_text_w_time" ins0.metrics).isSome ∧
          k = "AP" ++ " (Time in ms)")) ∨
       (k = "DAL" ∨
        ((List.lookup "latency_ca" ins0.metrics).isSome ∧ k = "DAL" ++ "_CA") ∨
        ((List.lookup "latency_text_w_time" ins0.metrics).isSome ∧
          k = "DAL" ++ " (Time in ms)"))) := by
    intro k
    rw [hmemD k, hmemP k, hmemA k]
    simp only [List.map_nil, List.not_mem_nil, false_or, or_assoc]
  refine ⟨r3, hloop, ?_⟩
  intro metric hm
  have hm2 : metric = "AL" ∨ metric = "AP" ∨ metric = "DAL" := by simpa using hm
  rcases hm2 with rfl | rfl | rfl <;>
    refine ⟨?_, ?_⟩ <;>
      (rw [hkeys]
       by_cases hcaF : (List.lookup "latency_ca" ins0.metrics).isSome <;>
         by_cases httF : (List.lookup "latency_text_w_time" ins0.metrics).isSome <;>
           simp [hcaF, httF])

/-- Witness for C6 at a concrete scorer whose instances uniformly carry
`latency` and `latency_ca` but not `latency_text_w_time`: the `_CA` keys
appear and the time-in-ms keys do not. -/
theorem latency_optional_keys_iff_instance_zero_witness :
    scCA.get_latency_score = Except.ok
      [("AL", 3), ("AL_CA", 3), ("AP", 3), ("AP_CA", 3), ("DAL", 3), ("DAL_CA", 3)] ∧
    ("AL" ++ "_CA") ∈
      ([("AL", 3), ("AL_CA", 3), ("AP", 3), ("AP_CA", 3), ("DAL", 3),
        ("DAL_CA", 3)] : List (String × Rat)).map Prod.fst ∧
    ("AL" ++ " (Time in ms)") ∉
      ([("AL", 3), ("AL_CA", 3), ("AP", 3), ("AP_CA", 3), ("DAL", 3),
        ("DAL_CA", 3)] : List (String × Rat)).map Prod.fst := by
  obtain ⟨rs, hok, hiff⟩ := latency_optional_keys_iff_instance_zero scCA
    (exInstanceCA 0 2) (by decide) (by decide) (by decide) (by decide) (by decide)
  have hconc : scCA.get_latency_score = Except.ok
      [("AL", 3), ("AL_CA", 3), ("AP", 3), ("AP_CA", 3), ("DAL", 3), ("DAL_CA", 3)] := by
    simp [SentenceLevelScorer.get_latency_score, latencyLoop, latencyMetricStep,
      optFamilyInsert, metricValues, pymean, scCA, exInstanceCA, exMetricsCA, dictInsert,
      List.lookup, List.map, except_map_ok, List.sum_cons, List.sum_nil]
    norm_num
  have hrs : rs = [("AL", 3), ("AL_CA", 3), ("AP", 3), ("AP_CA", 3), ("DAL", 3),
      ("DAL_CA", 3)] := by
    rw [hok] at hconc
    exact Except.ok.inj hconc
  subst hrs
  refine ⟨hconc, ?_, ?_⟩
  · exact (hiff "AL" (by simp)).1.mpr (by decide)
  · intro hmem
    have := (hiff "AL" (by simp)).2.mp hmem
    simp [exInstanceCA, exMetricsCA, List.lookup] at this

theorem lookup_mem {κ α : Type} [DecidableEq κ] :
    ∀ (m : List (κ × α)) (k : κ) (v : α), List.lookup k m = some v → (k, v) ∈ m
  | [], _, _, h => by cases h
  | (pk, pv) :: rest, k, v, h => by
    by_cases hk : k = pk
    · subst hk
      rw [lookup_cons_self] at h
      have hv := Option.some.inj h
      rw [← hv]
      simp
    · rw [lookup_cons_of_ne hk] at h
      exact List.mem_cons.mpr (Or.inr (lookup_mem rest k v h))

theorem score_all_finished
    (ev : Instance → List (String × List (String × Rat)))
    (bleu : String → List String → List String → Rat) (sc : SentenceLevelScorer)
    (hall : ∀ i ∈ sc.get_indices, (List.lookup i sc.instances).isSome)
    (hfin : ∀ i ∈ sc.get_indices, ∀ ins, List.lookup i sc.instances = some ins →
      ins.finish_prediction = true)
    (l : List Instance)
    (hl : lookupAll sc.instances sc.get_indices = Except.ok l) :
    sc.score ev bleu =
      (latencyLoop sc.instances [] ["AL", "AP", "DAL"]).map
        (fun L => ([("BLEU", bleu sc.sacrebleu_tokenizer
          (l.map (fun ins => ins.prediction))
          (l.map (fun ins => ins.reference)))], L)) := by
  obtain ⟨l', hl', hF'⟩ := lookupAll_ok sc.instances sc.get_indices hall
  rw [hl] at hl'
  have hle := Except.ok.inj hl'
  subst hle
  have hnfw : ((sc.get_indices.zip l).filter (fun q => !q.2.finish_prediction)) = [] := by
    rw [List.filter_eq_nil_iff]
    intro q hq
    obtain ⟨a, b⟩ := q
    have hmem := List.of_mem_zip hq
    have hlk := List.forall₂_zip hF' hq
    have hfq := hfin a hmem.1 b hlk
    simp [hfq]
  have hl3 : lookupAll sc.instances (rangeList sc.start_index sc.end_index) =
      Except.ok l := hl
  have hnfw2 : List.filter (fun q => !q.2.finish_prediction)
      ((rangeList sc.start_index sc.end_index).zip l) = [] := hnfw
  simp only [SentenceLevelScorer.score, SentenceLevelScorer.get_quality_score,
    SentenceLevelScorer.get_translation_list, SentenceLevelScorer.get_reference_list,
    SentenceLevelScorer.get_indices, hl3, except_bind_ok, hnfw2, List.map_nil, evalLoop]
  cases hLL : latencyLoop sc.instances [] ["AL", "AP", "DAL"] with
  | error e =>
    simp [SentenceLevelScorer.get_latency_score, SentenceLevelScorer.get_indices,
      hl3, hnfw2, except_bind_ok, hLL, Except.map, evalLoop]
  | ok L =>
    simp [SentenceLevelScorer.get_latency_score, SentenceLevelScorer.get_indices,
      hl3, hnfw2, except_bind_ok, hLL, Except.map, evalLoop]

/-- C1 (amended): for every live scorer over indices numbered contiguously
from 0 whose instances are all finished and self-report their key as index,
and whose configured sacrebleu tokenizer is the default `"13a"` (the replay
path always uses `"13a"`), serializing the instances to one log line each
and reconstructing via `from_log` yields a scorer whose `score()` output —
the Quality and the Latency sub-mapping together, agreement including any
failure — is identical to the original scorer's, for any terminal-metric
computation, corpus-BLEU function and round-tripping serializer pair. -/
theorem score_log_round_trip
    (ev : Instance → List (String × List (String × Rat)))
    (bleu : String → List String → List String → Rat)
    (to_log : Instance → String) (from_json : String → Instance)
    (sc : SentenceLevelScorer)
    (hstart : sc.start_index = 0) (hend : 0 ≤ sc.end_index)
    (hkeys : sc.instances.map Prod.fst = rangeList sc.start_index sc.end_index)
    (hinst : ∀ p ∈ sc.instances, p.2.index = p.1 ∧ p.2.finish_prediction = true ∧
      from_json (pyStrip (to_log p.2)) = p.2)
    (htok : sc.sacrebleu_tokenizer = "13a") :
    ∃ sc2, SentenceLevelScorer.from_log from_json
        (sc.instances.map (fun p => to_log p.2)) "text" = Except.ok sc2 ∧
      sc2.score ev bleu = sc.score ev bleu := by
  have hps : (sc.instances.map (fun p => to_log p.2)).map
      (fun line => ((from_json (pyStrip line)).index, from_json (pyStrip line))) =
      sc.instances := by
    rw [List.map_map]
    have hcong : ∀ p ∈ sc.instances,
        ((fun line => ((from_json (pyStrip line)).index, from_json (pyStrip line))) ∘
          (fun p => to_log p.2)) p = (fun p => p) p := by
      intro p hp
      obtain ⟨hidx, _, hrt⟩ := hinst p hp
      show ((from_json (pyStrip (to_log p.2))).index, from_json (pyStrip (to_log p.2))) = p
      rw [hrt, hidx]
    rw [List.map_congr_left hcong]
    exact List.map_id' _
  have hndkeys : (sc.instances.map Prod.fst).Nodup := by
    rw [hkeys]
    exact rangeList_nodup _ _
  have hfold : (sc.instances.map (fun p => to_log p.2)).foldl
      (fun m line => dictInsert m (from_json (pyStrip line)).index
        (from_json (pyStrip line))) [] = sc.instances := by
    have hkn : (((sc.instances.map (fun p => to_log p.2)).map
        (fun line => ((from_json (pyStrip line)).index,
          from_json (pyStrip line)))).map Prod.fst).Nodup := by
      rw [hps]
      exact hndkeys
    have h2 := foldl_dictInsert_fresh
      ((sc.instances.map (fun p => to_log p.2)).map
        (fun line => ((from_json (pyStrip line)).index, from_json (pyStrip line))))
      [] hkn (fun k _ => rfl)
    rw [List.foldl_map, hps] at h2
    simpa using h2
  refine
    ⟨{ dataloader := none, start_index := 0,
       end_index := (sc.instances.length : Int), sacrebleu_tokenizer := "13a",
       eval_latency_unit := none, no_space := none, instances := sc.instances },
     ?_, ?_⟩
  · rw [SentenceLevelScorer.from_log, if_pos rfl]
    have hcast : ∀ m1 m2 : List (Int × Instance), m1 = m2 →
        (Except.ok
          { dataloader := none, start_index := 0,
            end_index := (m1.length : Int), sacrebleu_tokenizer := "13a",
            eval_latency_unit := none, no_space := none, instances := m1 } :
          Except PyErr SentenceLevelScorer) =
        Except.ok
          { dataloader := none, start_index := 0,
            end_index := (m2.length : Int), sacrebleu_tokenizer := "13a",
            eval_latency_unit := none, no_space := none, instances := m2 } := by
      intro m1 m2 h
      rw [h]
    exact hcast _ _ hfold
  · have hend2 : ((sc.instances.length : Nat) : Int) = sc.end_index := by
      have hlen : sc.instances.length = (sc.end_index - sc.start_index).toNat := by
        have h3 := congrArg List.length hkeys
        rw [List.length_map, length_rangeList] at h3
        exact h3
      rw [hlen, hstart]
      simp [Int.toNat_of_nonneg hend]
    have hallsc : ∀ i ∈ sc.get_indices, (List.lookup i sc.instances).isSome := by
      intro i hi
      rw [← mem_keys_iff_lookup, hkeys]
      exact hi
    have hfinsc : ∀ i ∈ sc.get_indices, ∀ ins, List.lookup i sc.instances = some ins →
        ins.finish_prediction = true := by
      intro i _ ins hins
      exact (hinst (i, ins) (lookup_mem _ _ _ hins)).2.1
    obtain ⟨l, hl, _⟩ := lookupAll_ok sc.instances sc.get_indices hallsc
    have hsc1 := score_all_finished ev bleu sc hallsc hfinsc l hl
    have hidx2 : rangeList (0 : Int) ((sc.instances.length : Nat) : Int) =
        sc.get_indices := by
      rw [hend2, SentenceLevelScorer.get_indices, hstart]
    have hall2 : ∀ i ∈ rangeList (0 : Int) ((sc.instances.length : Nat) : Int),
        (List.lookup i sc.instances).isSome := by
      rw [hidx2]
      exact hallsc
    have hfin2 : ∀ i ∈ rangeList (0 : Int) ((sc.instances.length : Nat) : Int),
        ∀ ins, List.lookup i sc.instances = some ins →
          ins.finish_prediction = true := by
      rw [hidx2]
      exact hfinsc
    have hl2 : lookupAll sc.instances
        (rangeList (0 : Int) ((sc.instances.length : Nat) : Int)) = Except.ok l := by
      rw [hidx2]
      exact hl
    have hsc2 := score_all_finished ev bleu
      { dataloader := none, start_index := 0,
        end_index := (sc.instances.length : Int), sacrebleu_tokenizer := "13a",
        eval_latency_unit := none, no_space := none, instances := sc.instances }
      hall2 hfin2 l hl2
    rw [hsc1, hsc2, htok]

/-- Witness for C1 (amended) at a concrete two-instance scorer with the
default tokenizer: the log reconstruction returns the same scorer state and
the round-trip score equality holds. -/
theorem score_log_round_trip_witness :
    SentenceLevelScorer.from_log fromJsonW
        (scMean.instances.map (fun p => toLogW p.2)) "text" = Except.ok scMean ∧
    scMean.score exEv bleuZ = scMean.score exEv bleuZ := by
  obtain ⟨sc2, hfl, hsc⟩ := score_log_round_trip exEv bleuZ toLogW fromJsonW scMean
    rfl (by decide) (by decide) (by decide) rfl
  have hconc : SentenceLevelScorer.from_log fromJsonW
      (scMean.instances.map (fun p => toLogW p.2)) "text" = Except.ok scMean := by
    decide
  have hsc2 : sc2 = scMean := by
    rw [hconc] at hfl
    exact (Except.ok.inj hfl).symm
  rw [hsc2] at hsc
  exact ⟨hconc, hsc⟩

/-- Counterexample to C1 as stated: a live scorer satisfying every
round-trip precondition (contiguous indices from 0, all instances finished
and self-indexed, a deserializer inverting the serializer) but configured
with tokenizer `"tok"` reconstructs through `from_log` to a scorer with the
default tokenizer `"13a"`, and under a tokenizer-sensitive corpus-BLEU
function the two `score()` outputs differ in the Quality sub-mapping. -/
theorem score_log_round_trip_counterexample :
    SentenceLevelScorer.from_log fromJsonX
        (scTok.instances.map (fun p => toLogX p.2)) "text" = Except.ok scTokR ∧
    scTokR.score exEv bleuX ≠ scTok.score exEv bleuX ∧
    scTok.start_index = 0 ∧ (0 : Int) ≤ scTok.end_index ∧
    scTok.instances.map Prod.fst = rangeList scTok.start_index scTok.end_index ∧
    (exInstance 0 1 true "a").index = 0 ∧
    (exInstance 0 1 true "a").finish_prediction = true ∧
    fromJsonX (pyStrip (toLogX (exInstance 0 1 true "a"))) = exInstance 0 1 true "a" := by
  have hlat : latencyLoop [(0, exInstance 0 1 true "a")] [] ["AL", "AP", "DAL"] =
      Except.ok [("AL", 1), ("AP", 1), ("DAL", 1)] := by
    simp [latencyLoop, latencyMetricStep, optFamilyInsert, metricValues, pymean,
      exInstance, exMetrics, dictInsert, List.lookup, List.map, except_map_ok,
      List.sum_cons, List.sum_nil]
  have hlatTok : scTok.get_latency_score = Except.ok [("AL", 1), ("AP", 1), ("DAL", 1)] := by
    show latencyLoop [(0, exInstance 0 1 true "a")] [] ["AL", "AP", "DAL"] = _
    exact hlat
  have hlatTokR : scTokR.get_latency_score = Except.ok [("AL", 1), ("AP", 1), ("DAL", 1)] := by
    show latencyLoop [(0, exInstance 0 1 true "a")] [] ["AL", "AP", "DAL"] = _
    exact hlat
  have hscore1 : scTok.score exEv bleuX =
      Except.ok ([("BLEU", 1)], [("AL", 1), ("AP", 1), ("DAL", 1)]) := by
    have hgtl : scTok.get_translation_list exEv = Except.ok (scTok, [], [], ["a"]) := by
      decide
    have hrefs : scTok.get_reference_list = Except.ok ["ref"] := by decide
    have hbleu : bleuX scTok.sacrebleu_tokenizer ["a"] ["ref"] = 1 := by decide
    simp only [SentenceLevelScorer.score, SentenceLevelScorer.get_quality_score,
      hgtl, except_pure, except_bind_ok, hrefs, hbleu, hlatTok]
  have hscore2 : scTokR.score exEv bleuX =
      Except.ok ([("BLEU", 0)], [("AL", 1), ("AP", 1), ("DAL", 1)]) := by
    have hgtl : scTokR.get_translation_list exEv =
        Except.ok (scTokR, [], [], ["a"]) := by
      decide
    have hrefs : scTokR.get_reference_list = Except.ok ["ref"] := by decide
    have hbleu : bleuX scTokR.sacrebleu_tokenizer ["a"] ["ref"] = 0 := by decide
    simp only [SentenceLevelScorer.score, SentenceLevelScorer.get_quality_score,
      hgtl, except_pure, except_bind_ok, hrefs, hbleu, hlatTokR]
  refine ⟨by decide, ?_, rfl, by decide, by decide, rfl, rfl, by decide⟩
  rw [hscore1, hscore2]
  decide

end Simuleval
